import Mathlib

/-!
Shallow embedding of the traffic-accident analysis script (src/traffic.py).

The script is a single linear pipeline: load a CSV table, draw a seeded
random sample of 100000 rows, project and clean a fixed column subset,
derive hour-of-day and weekday-name features, and feed five aggregations
(hour counts, weekday counts, top-10 weather counts, day/night counts,
road-feature sums) plus a latitude/longitude point list to the renderers.

Tables are lists of records; missing CSV cells (NaN) are `none`;
`pd.to_datetime(..., errors = coerce)` is a total parser returning
`Option Timestamp`; the seeded sampler is a pure function of the seed, the
table and the sample size, with the numpy random stream modelled by a
deterministic congruential generator driving a Fisher-Yates style draw of
distinct row indices.
-/

/-- A parsed timestamp value, as produced by pd.to_datetime on the
Start_Time column (sub-second digits are parsed but not kept). -/
structure Timestamp where
  year : Nat
  month : Nat
  day : Nat
  hour : Nat
  minute : Nat
  second : Nat
deriving DecidableEq

/-- True precisely for leap years of the proleptic Gregorian calendar. -/
def isLeapYear (y : Nat) : Bool :=
  y % 4 = 0 && (y % 100 != 0 || y % 400 = 0)

/-- Number of days in a month of a given year. -/
def daysInMonth (y mo : Nat) : Nat :=
  if mo = 2 then (if isLeapYear y then 29 else 28)
  else if mo = 4 || mo = 6 || mo = 9 || mo = 11 then 30
  else 31

/-- Days elapsed since 0000-03-01 of the proleptic Gregorian calendar
(civil-from-days arithmetic, valid for year at least 1). -/
def daysFromCivil (y mo da : Nat) : Nat :=
  let yAdj := if mo ≤ 2 then y - 1 else y
  let era := yAdj / 400
  let yoe := yAdj % 400
  let mp := if 2 < mo then mo - 3 else mo + 9
  let doy := (153 * mp + 2) / 5 + (da - 1)
  let doe := yoe * 365 + yoe / 4 - yoe / 100 + doy
  era * 146097 + doe

/-- Weekday index of a date, with Monday = 0 through Sunday = 6 (this is
the pandas dayofweek convention behind Series.dt.day_name). -/
def weekdayIndex (y mo da : Nat) : Nat :=
  (daysFromCivil y mo da + 2) % 7

/-- The seven canonical English weekday names, Monday first (the pandas
day_name output alphabet). -/
def weekdayNames : List String :=
  ["Monday", "Tuesday", "Wednesday", "Thursday", "Friday", "Saturday", "Sunday"]

/-- Full English weekday name of a timestamp, as Series.dt.day_name. -/
def timestampDayName (ts : Timestamp) : String :=
  weekdayNames.getD (weekdayIndex ts.year ts.month ts.day) "Monday"

/-- Split a character list at every occurrence of a separator character
(the list-level string splitting the datetime parser works with). -/
def splitOnChar (c : Char) : List Char → List (List Char)
  | [] => [[]]
  | x :: xs =>
    if x = c then [] :: splitOnChar c xs
    else
      match splitOnChar c xs with
      | [] => [[x]]
      | y :: ys => (x :: y) :: ys

/-- Parse a non-empty all-digit character list as a decimal number (the
cell-level integer parsing inside the datetime parser). -/
def digitsToNat? (l : List Char) : Option Nat :=
  if l.isEmpty then none
  else
    l.foldl
      (fun acc c =>
        match acc with
        | none => none
        | some n => if c.isDigit then some (n * 10 + (c.toNat - 48)) else none)
      (some 0)

/-- Model of pd.to_datetime(s, errors = coerce) on one cell: parse a
string of shape YYYY-MM-DD HH:MM:SS (with optional fractional seconds)
and validate the component ranges, returning none (NaT) on any failure
instead of raising.  The year window is the pandas nanosecond Timestamp
range. -/
def to_datetime (s : String) : Option Timestamp :=
  match splitOnChar ' ' s.data with
  | [d, t] =>
    match splitOnChar '-' d, splitOnChar ':' t with
    | [ys, mos, das], [hs, mis, ses] =>
      match digitsToNat? ys, digitsToNat? mos, digitsToNat? das, digitsToNat? hs,
            digitsToNat? mis, digitsToNat? ((splitOnChar '.' ses).headD ses) with
      | some y, some mo, some da, some h, some mi, some se =>
        if 1678 ≤ y ∧ y ≤ 2261 ∧ 1 ≤ mo ∧ mo ≤ 12 ∧ 1 ≤ da ∧
           da ≤ daysInMonth y mo ∧ h ≤ 23 ∧ mi ≤ 59 ∧ se ≤ 59 then
          some { year := y, month := mo, day := da, hour := h, minute := mi, second := se }
        else none
      | _, _, _, _, _, _ => none
    | _, _ => none
  | _ => none

/-- One row of the loaded table, restricted to the columns the script
keeps (columns_to_keep, line 49).  A none field is a missing cell (NaN);
Start_Time is the raw string before parsing. -/
structure Record where
  start_Time : Option String
  start_Lat : Option Rat
  start_Lng : Option Rat
  severity : Option Int
  weather_Condition : Option String
  sunrise_Sunset : Option String
  junction : Option Bool
  crossing : Option Bool
  traffic_Signal : Option Bool
deriving DecidableEq

/-- One row of df_clean after lines 53-63: the dropna columns are
non-null by construction, Start_Time has been replaced by its parse
result (none = NaT for an unparseable string), and Hour and DayOfWeek
are the derived columns (none = NaN when Start_Time is NaT). -/
structure CleanRecord where
  start_Time : Option Timestamp
  start_Lat : Rat
  start_Lng : Rat
  severity : Option Int
  weather_Condition : String
  sunrise_Sunset : String
  junction : Option Bool
  crossing : Option Bool
  traffic_Signal : Option Bool
  hour : Option Nat
  dayOfWeek : Option String
deriving DecidableEq

/-- Row-wise content of the cleaning stage (lines 53-63): keep the row
only when Start_Time, Start_Lat, Start_Lng, Weather_Condition and
Sunrise_Sunset are all non-null (dropna, line 56), then parse Start_Time
with errors = coerce (line 59) and derive Hour and DayOfWeek from the
parse result (lines 62-63).  No second null filter follows the parse. -/
def cleanRow (r : Record) : Option CleanRecord :=
  match r.start_Time, r.start_Lat, r.start_Lng, r.weather_Condition, r.sunrise_Sunset with
  | some st, some la, some lo, some wc, some ss =>
    let ts := to_datetime st
    some { start_Time := ts, start_Lat := la, start_Lng := lo, severity := r.severity,
           weather_Condition := wc, sunrise_Sunset := ss, junction := r.junction,
           crossing := r.crossing, traffic_Signal := r.traffic_Signal,
           hour := ts.map Timestamp.hour, dayOfWeek := ts.map timestampDayName }
  | _, _, _, _, _ => none

/-- The cleaning stage applied to the sampled table: df_clean. -/
def clean (t : List Record) : List CleanRecord := t.filterMap cleanRow

/-- Distinct values of a list in order of first appearance, with an
accumulator of values already seen. -/
def firstDedupAux {α : Type} [DecidableEq α] (seen : List α) : List α → List α
  | [] => []
  | x :: xs => if x ∈ seen then firstDedupAux seen xs else x :: firstDedupAux (x :: seen) xs

/-- Distinct values of a list in order of first appearance (the category
universe a value_counts or countplot call works over). -/
def firstDedup {α : Type} [DecidableEq α] (l : List α) : List α := firstDedupAux [] l

/-- Ordering of labelled counts by descending count; ties keep the order
of the underlying stable sort. -/
def countGe {α : Type} (a b : α × Nat) : Prop := b.2 ≤ a.2

instance {α : Type} : DecidableRel (@countGe α) :=
  fun a b => inferInstanceAs (Decidable (b.2 ≤ a.2))

instance {α : Type} : IsTotal (α × Nat) countGe :=
  ⟨fun a b => Nat.le_total b.2 a.2⟩

instance {α : Type} : IsTrans (α × Nat) countGe :=
  ⟨fun _ _ _ hab hbc => Nat.le_trans hbc hab⟩

/-- Model of Series.value_counts on a column with no nulls: one entry per
distinct value with its multiplicity, sorted by descending count, ties in
first-seen order. -/
def value_counts (xs : List String) : List (String × Nat) :=
  List.insertionSort countGe ((firstDedup xs).map (fun c => (c, xs.count c)))

/-- Aggregation behind the hour chart (countplot on Hour, line 72):
seaborn takes the distinct non-null values present in the data as the
categories, sorts numeric categories ascending, and counts each; null
(NaN) hours are dropped and absent hours get no bar. -/
def byHour (rs : List CleanRecord) : List (Nat × Nat) :=
  let hs := rs.filterMap CleanRecord.hour
  (List.insertionSort (fun a b => a ≤ b) (firstDedup hs)).map (fun v => (v, hs.count v))

/-- The fixed weekday display order of line 80. -/
def day_order : List String :=
  ["Monday", "Tuesday", "Wednesday", "Thursday", "Friday", "Saturday", "Sunday"]

/-- Aggregation behind the weekday chart (countplot on DayOfWeek with an
explicit order, line 81): the passed order fixes the categories, so every
listed weekday appears (with count 0 when absent) and nothing else; null
DayOfWeek values are dropped. -/
def byDayOfWeek (rs : List CleanRecord) : List (String × Nat) :=
  day_order.map (fun d => (d, (rs.filterMap CleanRecord.dayOfWeek).count d))

/-- Aggregation behind the weather chart (line 90): value_counts on
Weather_Condition followed by nlargest 10, which keeps the first ten
entries of the descending value_counts order. -/
def byWeather (rs : List CleanRecord) : List (String × Nat) :=
  (value_counts (rs.map CleanRecord.weather_Condition)).take 10

/-- Aggregation behind the day/night chart (countplot on Sunrise_Sunset,
line 99): distinct values present, sorted as strings, with counts. -/
def byDayNight (rs : List CleanRecord) : List (String × Nat) :=
  let xs := rs.map CleanRecord.sunrise_Sunset
  (List.insertionSort (fun a b : String => a ≤ b) (firstDedup xs)).map (fun v => (v, xs.count v))

/-- Sum of a boolean column as pandas computes it: true counts 1, false
counts 0, null (NaN) cells are skipped. -/
def colSum (xs : List (Option Bool)) : Nat :=
  xs.foldr (fun x acc => (if x = some true then 1 else 0) + acc) 0

/-- Aggregation behind the road-feature chart (lines 107-108): the sums
of the three boolean columns, sorted descending. -/
def byRoadFeature (rs : List CleanRecord) : List (String × Nat) :=
  List.insertionSort countGe
    [("Junction", colSum (rs.map CleanRecord.junction)),
     ("Crossing", colSum (rs.map CleanRecord.crossing)),
     ("Traffic_Signal", colSum (rs.map CleanRecord.traffic_Signal))]

/-- The heatmap point list (line 128): the Start_Lat and Start_Lng pairs
of df_clean.  The dropna in the source is a no-op here because cleaning
already removed rows with null coordinates. -/
def heat_data (rs : List CleanRecord) : List (Rat × Rat) :=
  rs.map (fun r => (r.start_Lat, r.start_Lng))

/-- One step of the deterministic congruential generator modelling the
numpy random stream seeded by random_state. -/
def lcgNext (s : Nat) : Nat := (1103515245 * s + 12345) % 2147483648

/-- Fisher-Yates style draw: repeatedly pick a pseudo-random position of
the remaining pool and move that element to the output.  The fuel
argument equals the pool length at the top call, so the fuel-exhausted
branch is never reached from shuffle. -/
def shuffleAux : Nat → Nat → List Nat → List Nat
  | 0, _, _ => []
  | _ + 1, _, [] => []
  | fuel + 1, seed, p :: ps =>
    let s := lcgNext seed
    let x := (p :: ps).get ⟨s % (p :: ps).length, Nat.mod_lt _ (Nat.succ_pos _)⟩
    x :: shuffleAux fuel s ((p :: ps).erase x)

/-- Seeded pseudo-random permutation of a list of row indices. -/
def shuffle (seed : Nat) (l : List Nat) : List Nat := shuffleAux l.length seed l

/-- The fixed sample size of line 35. -/
def sample_size : Nat := 100000

/-- The fixed seed of line 36. -/
def random_state : Nat := 42

/-- Model of df.sample(n, random_state) with the pandas default
replace = False (line 36): when n exceeds the number of rows pandas
raises a ValueError, modelled as an error result; otherwise the result
is the rows at the first n indices of a seed-determined permutation of
all row indices, so every returned row comes from a distinct source
row. -/
def sample (t : List Record) (n : Nat) (seed : Nat) : Except String (List Record) :=
  if t.length < n then
    Except.error "Cannot take a larger sample than population when replace is False"
  else
    Except.ok (((shuffle seed (List.range t.length)).take n).filterMap (fun i => t[i]?))

/-- The hardcoded input filename of line 24. -/
def file_path : String := "US_Accidents_March23.csv"

/-- The aggregation results handed to the renderers. -/
structure AggOutputs where
  hourChart : List (Nat × Nat)
  dayChart : List (String × Nat)
  weatherChart : List (String × Nat)
  dayNightChart : List (String × Nat)
  roadFeatureChart : List (String × Nat)
  heatData : List (Rat × Rat)
deriving DecidableEq

/-- Observable outcome of one run of the script: the console messages in
order, the process exit code, and the aggregation outputs when the run
reaches them (none when the run halts or crashes first). -/
structure PipelineResult where
  messages : List String
  exitCode : Nat
  aggregations : Option AggOutputs
deriving DecidableEq

/-- Console message of line 19. -/
def msg_libs : String := "Libraries imported successfully."

/-- Console message of line 25. -/
def msg_loading : String := "Loading data from \x27US_Accidents_March23.csv\x27..."

/-- Console message of line 30. -/
def msg_loaded : String := "Dataset loaded successfully."

/-- Console message of line 41, naming the missing file. -/
def msg_not_found : String := "Error: \x27US_Accidents_March23.csv\x27 not found."

/-- Console message of line 42, naming the expected location. -/
def msg_location : String :=
  "Please make sure the \x27US_Accidents_March23.csv\x27 file is in the same folder as this script."

/-- Console message of line 38. -/
def msg_sample : String := "Using a random sample of 100000 records for analysis."

/-- Top-to-bottom run of the script as a function of the input file
contents (none = the CSV file is absent).  A missing file takes the
FileNotFoundError branch of lines 40-43: the two error messages are
printed and the bare Python exit() call terminates the process, which
exits with status code 0 because exit() with no argument carries no
error status.  When the file is present but has fewer rows than
sample_size, df.sample raises a ValueError that no handler catches, so
the process dies with the interpreter failure status 1 before cleaning
or aggregation.  Otherwise the pipeline runs to completion with exit
code 0. -/
def runPipeline (file : Option (List Record)) : PipelineResult :=
  match file with
  | none =>
    { messages := [msg_libs, msg_loading, msg_not_found, msg_location],
      exitCode := 0,
      aggregations := none }
  | some df =>
    match sample df sample_size random_state with
    | Except.error _ =>
      { messages := [msg_libs, msg_loading, msg_loaded],
        exitCode := 1,
        aggregations := none }
    | Except.ok df_sample =>
      let df_clean := clean df_sample
      { messages := [msg_libs, msg_loading, msg_loaded, msg_sample],
        exitCode := 0,
        aggregations := some
          { hourChart := byHour df_clean,
            dayChart := byDayOfWeek df_clean,
            weatherChart := byWeather df_clean,
            dayNightChart := byDayNight df_clean,
            roadFeatureChart := byRoadFeature df_clean,
            heatData := heat_data df_clean } }

/-- Strip the Severity cell of a raw row, leaving every other column
unchanged (used to say two tables differ only in Severity). -/
def eraseSeverity (r : Record) : Record := { r with severity := none }

/-- Strip the Severity cell of a cleaned row. -/
def eraseSeverityClean (cr : CleanRecord) : CleanRecord := { cr with severity := none }

/-- A fully populated row whose Start_Time parses to Monday 2023-01-02
at hour 5. -/
def rowA : Record :=
  { start_Time := some "2023-01-02 05:46:00", start_Lat := some 1, start_Lng := some 2,
    severity := some 2, weather_Condition := some "Fair", sunrise_Sunset := some "Day",
    junction := some false, crossing := some true, traffic_Signal := some false }

/-- The same row as rowA except for its Severity value. -/
def rowASev4 : Record :=
  { start_Time := some "2023-01-02 05:46:00", start_Lat := some 1, start_Lng := some 2,
    severity := some 4, weather_Condition := some "Fair", sunrise_Sunset := some "Day",
    junction := some false, crossing := some true, traffic_Signal := some false }

/-- A row with every required column non-null whose Start_Time string
does not parse as a timestamp. -/
def rowU : Record :=
  { start_Time := some "banana", start_Lat := some 3, start_Lng := some 4,
    severity := some 2, weather_Condition := some "Rain", sunrise_Sunset := some "Day",
    junction := some true, crossing := some false, traffic_Signal := some false }

/-- The cleaned form of rowA. -/
def crA : CleanRecord :=
  { start_Time := some { year := 2023, month := 1, day := 2, hour := 5, minute := 46, second := 0 },
    start_Lat := 1, start_Lng := 2, severity := some 2, weather_Condition := "Fair",
    sunrise_Sunset := "Day", junction := some false, crossing := some true,
    traffic_Signal := some false, hour := some 5, dayOfWeek := some "Monday" }

theorem mem_firstDedupAux {α : Type} [DecidableEq α] (seen : List α) (l : List α) (x : α) :
    x ∈ firstDedupAux seen l ↔ x ∈ l ∧ x ∉ seen := by
  induction l generalizing seen with
  | nil => simp [firstDedupAux]
  | cons y ys ih =>
    by_cases hy : y ∈ seen
    · rw [firstDedupAux, if_pos hy, ih]
      constructor
      · rintro ⟨hx, hns⟩
        exact ⟨List.mem_cons.mpr (Or.inr hx), hns⟩
      · rintro ⟨hx, hns⟩
        rcases List.mem_cons.mp hx with rfl | hx2
        · exact absurd hy hns
        · exact ⟨hx2, hns⟩
    · rw [firstDedupAux, if_neg hy]
      rw [List.mem_cons, ih]
      constructor
      · rintro (rfl | ⟨hx, hns⟩)
        · exact ⟨List.mem_cons_self _ _, hy⟩
        · refine ⟨List.mem_cons.mpr (Or.inr hx), ?_⟩
          intro hc
          exact hns (List.mem_cons.mpr (Or.inr hc))
      · rintro ⟨hx, hns⟩
        rcases List.mem_cons.mp hx with rfl | hx2
        · exact Or.inl rfl
        · rcases eq_or_ne x y with rfl | hxy
          · exact Or.inl rfl
          · refine Or.inr ⟨hx2, ?_⟩
            intro hc
            rcases List.mem_cons.mp hc with rfl | hc2
            · exact hxy rfl
            · exact hns hc2

theorem nodup_firstDedupAux {α : Type} [DecidableEq α] (seen : List α) (l : List α) :
    (firstDedupAux seen l).Nodup := by
  induction l generalizing seen with
  | nil => simp [firstDedupAux]
  | cons y ys ih =>
    by_cases hy : y ∈ seen
    · rw [firstDedupAux, if_pos hy]
      exact ih seen
    · rw [firstDedupAux, if_neg hy]
      refine List.nodup_cons.mpr ⟨?_, ih (y :: seen)⟩
      intro hc
      exact ((mem_firstDedupAux _ _ _).mp hc).2 (List.mem_cons_self _ _)

theorem mem_firstDedup {α : Type} [DecidableEq α] (l : List α) (x : α) :
    x ∈ firstDedup l ↔ x ∈ l := by
  simp [firstDedup, mem_firstDedupAux]

theorem nodup_firstDedup {α : Type} [DecidableEq α] (l : List α) :
    (firstDedup l).Nodup := nodup_firstDedupAux [] l

theorem shuffleAux_perm (fuel : Nat) :
    ∀ (seed : Nat) (pool : List Nat), pool.length ≤ fuel →
      (shuffleAux fuel seed pool).Perm pool := by
  induction fuel with
  | zero =>
    intro seed pool hle
    have : pool = [] := List.length_eq_zero.mp (Nat.le_zero.mp hle)
    subst this
    simp [shuffleAux]
  | succ fuel ih =>
    intro seed pool hle
    match pool with
    | [] => simp [shuffleAux]
    | p :: ps =>
      simp only [shuffleAux]
      refine ((ih _ _ ?_).cons _).trans (List.perm_cons_erase (List.get_mem _ _ _)).symm
      rw [List.length_erase_of_mem (List.get_mem _ _ _), List.length_cons]
      simp only [List.length_cons] at hle
      omega

theorem shuffle_perm (seed : Nat) (l : List Nat) : (shuffle seed l).Perm l :=
  shuffleAux_perm l.length seed l le_rfl

theorem filterMap_getElem_length (t : List Record) :
    ∀ idxs : List Nat, (∀ i ∈ idxs, i < t.length) →
      (idxs.filterMap (fun i => t[i]?)).length = idxs.length := by
  intro idxs
  induction idxs with
  | nil => simp
  | cons i is ih =>
    intro hall
    have hi : i < t.length := hall i (List.mem_cons_self _ _)
    rw [List.filterMap_cons, List.getElem?_eq_getElem hi]
    simp only [List.length_cons]
    rw [ih (fun j hj => hall j (List.mem_cons.mpr (Or.inr hj)))]

theorem to_datetime_hour_le (s : String) (ts : Timestamp)
    (h : to_datetime s = some ts) : ts.hour ≤ 23 := by
  unfold to_datetime at h
  repeat split at h
  all_goals first | exact Option.noConfusion h | skip
  have h2 := Option.some.inj h
  subst h2
  dsimp only
  omega

theorem timestampDayName_mem (ts : Timestamp) : timestampDayName ts ∈ weekdayNames := by
  unfold timestampDayName
  have hw : weekdayIndex ts.year ts.month ts.day < weekdayNames.length := by
    have h7 : weekdayIndex ts.year ts.month ts.day < 7 := Nat.mod_lt _ (by decide)
    simpa [weekdayNames] using h7
  rw [List.getD_eq_getElem?_getD, List.getElem?_eq_getElem hw]
  exact List.getElem_mem _

theorem colSum_eq_filter_length (xs : List (Option Bool)) :
    colSum xs = (xs.filter (fun x => x = some true)).length := by
  induction xs with
  | nil => rfl
  | cons x xs ih =>
    by_cases hx : x = some true
    · simp [colSum, List.filter_cons, hx] at ih ⊢
      omega
    · simp [colSum, List.filter_cons, hx] at ih ⊢
      exact ih

theorem filterMap_filter_isSome (rs : List CleanRecord)
    (f : CleanRecord → Option Nat) :
    (rs.filter (fun r => (f r).isSome)).filterMap f = rs.filterMap f := by
  induction rs with
  | nil => rfl
  | cons r rs ih =>
    by_cases hr : (f r).isSome
    · obtain ⟨v, hv⟩ := Option.isSome_iff_exists.mp hr
      simp [List.filter_cons, hr, List.filterMap_cons, hv, ih]
    · have hnone : f r = none := Option.not_isSome_iff_eq_none.mp hr
      simp [List.filter_cons, hr, List.filterMap_cons, hnone, ih]

theorem filterMap_filter_isSome_str (rs : List CleanRecord)
    (f : CleanRecord → Option String) :
    (rs.filter (fun r => (f r).isSome)).filterMap f = rs.filterMap f := by
  induction rs with
  | nil => rfl
  | cons r rs ih =>
    by_cases hr : (f r).isSome
    · obtain ⟨v, hv⟩ := Option.isSome_iff_exists.mp hr
      simp [List.filter_cons, hr, List.filterMap_cons, hv, ih]
    · have hnone : f r = none := Option.not_isSome_iff_eq_none.mp hr
      simp [List.filter_cons, hr, List.filterMap_cons, hnone, ih]

theorem cleanRow_eraseSeverity (r : Record) :
    cleanRow (eraseSeverity r) = (cleanRow r).map eraseSeverityClean := by
  obtain ⟨st, la, lo, sev, wc, ss, j, c, tg⟩ := r
  cases st <;> cases la <;> cases lo <;> cases wc <;> cases ss <;> rfl

theorem clean_eraseSeverity (t : List Record) :
    clean (t.map eraseSeverity) = (clean t).map eraseSeverityClean := by
  unfold clean
  rw [List.filterMap_map, List.map_filterMap]
  apply List.filterMap_congr
  intro r _
  exact cleanRow_eraseSeverity r

theorem byHour_eraseSeverity (rs : List CleanRecord) :
    byHour (rs.map eraseSeverityClean) = byHour rs := by
  simp only [byHour, List.filterMap_map]
  rfl

theorem byDayOfWeek_eraseSeverity (rs : List CleanRecord) :
    byDayOfWeek (rs.map eraseSeverityClean) = byDayOfWeek rs := by
  simp only [byDayOfWeek, List.filterMap_map]
  rfl

theorem byWeather_eraseSeverity (rs : List CleanRecord) :
    byWeather (rs.map eraseSeverityClean) = byWeather rs := by
  simp only [byWeather, value_counts, List.map_map]
  rfl

theorem byDayNight_eraseSeverity (rs : List CleanRecord) :
    byDayNight (rs.map eraseSeverityClean) = byDayNight rs := by
  simp only [byDayNight, List.map_map]
  rfl

theorem byRoadFeature_eraseSeverity (rs : List CleanRecord) :
    byRoadFeature (rs.map eraseSeverityClean) = byRoadFeature rs := by
  simp only [byRoadFeature, List.map_map]
  rfl

theorem heat_data_eraseSeverity (rs : List CleanRecord) :
    heat_data (rs.map eraseSeverityClean) = heat_data rs := by
  simp only [heat_data, List.map_map]
  rfl

/-- C7: for every cleaned-record collection, the ByDayOfWeek output keys,
in order, equal exactly Monday through Sunday, with no extra keys and no
omissions, regardless of the group-by default ordering: the explicit
order argument of the countplot call fixes the categories. -/
theorem byDayOfWeek_keys (rs : List CleanRecord) :
    (byDayOfWeek rs).map Prod.fst = day_order := rfl

/-- C8: ByRoadFeature computes, for each of the three road features, a
sum equal to the number of records whose value for that feature is true,
and presents the three sums sorted in descending order of count. -/
theorem byRoadFeature_spec (rs : List CleanRecord) :
    List.Sorted countGe (byRoadFeature rs) ∧
    (byRoadFeature rs).Perm
      [("Junction", (rs.filter (fun r => r.junction = some true)).length),
       ("Crossing", (rs.filter (fun r => r.crossing = some true)).length),
       ("Traffic_Signal", (rs.filter (fun r => r.traffic_Signal = some true)).length)] := by
  constructor
  · exact List.sorted_insertionSort countGe _
  · have hj : colSum (rs.map CleanRecord.junction) =
        (rs.filter (fun r => r.junction = some true)).length := by
      rw [colSum_eq_filter_length, List.filter_map, List.length_map]
      rfl
    have hcr : colSum (rs.map CleanRecord.crossing) =
        (rs.filter (fun r => r.crossing = some true)).length := by
      rw [colSum_eq_filter_length, List.filter_map, List.length_map]
      rfl
    have htr : colSum (rs.map CleanRecord.traffic_Signal) =
        (rs.filter (fun r => r.traffic_Signal = some true)).length := by
      rw [colSum_eq_filter_length, List.filter_map, List.length_map]
      rfl
    rw [byRoadFeature, hj, hcr, htr]
    exact List.perm_insertionSort countGe _

/-- C9: the sampling step is deterministic: any two runs on equal input
tables with equal sample sizes and equal seeds return the same rows.  In
the source the seed is the fixed random_state 42, so the draw is a pure
function of the table and the sample size. -/
theorem sample_deterministic (t1 t2 : List Record) (n1 n2 s1 s2 : Nat)
    (ht : t1 = t2) (hn : n1 = n2) (hs : s1 = s2) :
    sample t1 n1 s1 = sample t2 n2 s2 := by
  rw [ht, hn, hs]

/-- Witness for C9: the two runs on the concrete one-row table agree. -/
theorem sample_deterministic_witness :
    sample [rowA] 1 42 = sample [rowA] 1 42 :=
  sample_deterministic [rowA] [rowA] 1 1 42 42 rfl rfl rfl

/-- C10: the Severity column, though selected into the cleaned table,
influences no output: two sampled tables that differ only in their
Severity values produce identical results for all five aggregations and
for the geographic point list. -/
theorem severity_noninterference (t1 t2 : List Record)
    (h : t1.map eraseSeverity = t2.map eraseSeverity) :
    byHour (clean t1) = byHour (clean t2) ∧
    byDayOfWeek (clean t1) = byDayOfWeek (clean t2) ∧
    byWeather (clean t1) = byWeather (clean t2) ∧
    byDayNight (clean t1) = byDayNight (clean t2) ∧
    byRoadFeature (clean t1) = byRoadFeature (clean t2) ∧
    heat_data (clean t1) = heat_data (clean t2) := by
  have hc : (clean t1).map eraseSeverityClean = (clean t2).map eraseSeverityClean := by
    rw [← clean_eraseSeverity, ← clean_eraseSeverity, h]
  refine ⟨?_, ?_, ?_, ?_, ?_, ?_⟩
  · rw [← byHour_eraseSeverity (clean t1), hc, byHour_eraseSeverity]
  · rw [← byDayOfWeek_eraseSeverity (clean t1), hc, byDayOfWeek_eraseSeverity]
  · rw [← byWeather_eraseSeverity (clean t1), hc, byWeather_eraseSeverity]
  · rw [← byDayNight_eraseSeverity (clean t1), hc, byDayNight_eraseSeverity]
  · rw [← byRoadFeature_eraseSeverity (clean t1), hc, byRoadFeature_eraseSeverity]
  · rw [← heat_data_eraseSeverity (clean t1), hc, heat_data_eraseSeverity]

/-- Witness for C10: two concrete one-row tables that differ only in
Severity (2 versus 4) give identical aggregation results. -/
theorem severity_noninterference_witness :
    byHour (clean [rowA]) = byHour (clean [rowASev4]) ∧
    byDayOfWeek (clean [rowA]) = byDayOfWeek (clean [rowASev4]) ∧
    byWeather (clean [rowA]) = byWeather (clean [rowASev4]) ∧
    byDayNight (clean [rowA]) = byDayNight (clean [rowASev4]) ∧
    byRoadFeature (clean [rowA]) = byRoadFeature (clean [rowASev4]) ∧
    heat_data (clean [rowA]) = heat_data (clean [rowASev4]) :=
  severity_noninterference [rowA] [rowASev4] rfl

/-- C1 counterexample: on a one-row table the sampling call with the
fixed sample size 100000 raises (pandas ValueError for a sample larger
than the population with replace = False) instead of returning all rows,
so the Sampler does not return a table of size min(N, table size) on
every input. -/
theorem sample_small_table_error :
    sample [rowA] sample_size random_state =
      Except.error "Cannot take a larger sample than population when replace is False" := rfl

/-- C1 (amended): when N is at most the number of rows, the Sampler
returns, without failing, exactly N rows located at pairwise distinct
row indices (drawn without replacement); when the table has fewer rows
than N it fails with an error instead of returning all rows. -/
theorem sample_spec (t : List Record) (n seed : Nat) :
    (n ≤ t.length →
      ∃ idxs : List Nat, idxs.Nodup ∧ (∀ i ∈ idxs, i < t.length) ∧ idxs.length = n ∧
        sample t n seed = Except.ok (idxs.filterMap (fun i => t[i]?)) ∧
        (idxs.filterMap (fun i => t[i]?)).length = n) ∧
    (t.length < n → ∃ e, sample t n seed = Except.error e) := by
  constructor
  · intro hle
    have hnd : (shuffle seed (List.range t.length)).Nodup :=
      (shuffle_perm seed _).nodup_iff.mpr (List.nodup_range _)
    have hmem : ∀ i ∈ (shuffle seed (List.range t.length)).take n, i < t.length := by
      intro i hi
      exact List.mem_range.mp ((shuffle_perm seed _).mem_iff.mp (List.take_subset _ _ hi))
    have hlen : ((shuffle seed (List.range t.length)).take n).length = n := by
      rw [List.length_take, (shuffle_perm seed _).length_eq, List.length_range]
      exact Nat.min_eq_left hle
    refine ⟨(shuffle seed (List.range t.length)).take n, ?_, hmem, hlen, ?_, ?_⟩
    · exact hnd.sublist (List.take_sublist _ _)
    · unfold sample
      rw [if_neg (Nat.not_lt.mpr hle)]
    · rw [filterMap_getElem_length t _ hmem, hlen]
  · intro hlt
    refine ⟨"Cannot take a larger sample than population when replace is False", ?_⟩
    unfold sample
    rw [if_pos hlt]

/-- Witness for C1: on a two-row table a draw of one row succeeds with
one distinct in-range index, and on a one-row table the fixed sample
size fails. -/
theorem sample_spec_witness :
    (∃ idxs : List Nat, idxs.Nodup ∧ (∀ i ∈ idxs, i < ([rowA, rowU] : List Record).length) ∧
        idxs.length = 1 ∧
        sample [rowA, rowU] 1 42 = Except.ok (idxs.filterMap (fun i => [rowA, rowU][i]?)) ∧
        (idxs.filterMap (fun i => [rowA, rowU][i]?)).length = 1) ∧
    (∃ e, sample [rowA] sample_size 42 = Except.error e) :=
  ⟨(sample_spec [rowA, rowU] 1 42).1 (by decide),
   (sample_spec [rowA] sample_size 42).2 (by decide)⟩

/-- C2 counterexample: with the input file missing the script halts
through the bare Python exit() call, and a bare exit() carries no error
status, so the process terminates with exit code 0 rather than the
non-zero code the claim requires. -/
theorem runPipeline_missing_exitCode : (runPipeline none).exitCode = 0 := rfl

/-- C2 (amended): when the input file is missing the run reports the
messages naming the missing file and its expected location and halts
before any aggregation runs, but its exit code is 0 (bare exit());
when the file exists with at least sample_size rows the run completes
with exit code 0 and produces the aggregations; when the file exists
with fewer rows the uncaught sampling error terminates the run with the
interpreter failure status 1, also before any aggregation. -/
theorem runPipeline_spec :
    (runPipeline none).aggregations = none ∧
    msg_not_found ∈ (runPipeline none).messages ∧
    msg_location ∈ (runPipeline none).messages ∧
    (runPipeline none).exitCode = 0 ∧
    (∀ df : List Record, sample_size ≤ df.length →
      (runPipeline (some df)).exitCode = 0 ∧ (runPipeline (some df)).aggregations ≠ none) ∧
    (∀ df : List Record, df.length < sample_size →
      (runPipeline (some df)).exitCode = 1 ∧ (runPipeline (some df)).aggregations = none) := by
  refine ⟨rfl, ?_, ?_, rfl, ?_, ?_⟩
  · simp [runPipeline]
  · simp [runPipeline]
  · intro df hle
    have hnl : ¬ df.length < sample_size := Nat.not_lt.mpr hle
    constructor
    · simp [runPipeline, sample, hnl]
    · simp [runPipeline, sample, hnl]
  · intro df hlt
    constructor
    · simp [runPipeline, sample, hlt]
    · simp [runPipeline, sample, hlt]

/-- Witness for C2: a table with exactly sample_size rows completes with
exit code 0, and a one-row table dies with exit code 1. -/
theorem runPipeline_spec_witness :
    (runPipeline (some (List.replicate sample_size rowA))).exitCode = 0 ∧
    (runPipeline (some [rowA])).exitCode = 1 := by
  constructor
  · exact (runPipeline_spec.2.2.2.2.1 (List.replicate sample_size rowA) (by simp)).1
  · exact (runPipeline_spec.2.2.2.2.2 [rowA] (by decide)).1

/-- C3 counterexample: the row with the non-null unparseable Start_Time
string is not excluded from the Cleaner output (the clean table still
has one row) and is counted by the ByWeather aggregation, because the
null filter runs before parsing and is never re-applied. -/
theorem unparseable_row_not_excluded :
    (clean [rowU]).length = 1 ∧ byWeather (clean [rowU]) = [("Rain", 1)] := by decide

/-- C3 (amended): a non-null unparseable timestamp is coerced to null
without any fatal error and the row stays in the Cleaner output with
null parsed timestamp, Hour and DayOfWeek; such rows are excluded from
the ByHour and ByDayOfWeek aggregations (their counts ignore null-keyed
rows) but not from the other aggregations. -/
theorem unparseable_rows_spec :
    (∀ (t : List Record) (r : Record), r ∈ t →
      (∃ st, r.start_Time = some st ∧ to_datetime st = none) →
      r.start_Lat ≠ none → r.start_Lng ≠ none →
      r.weather_Condition ≠ none → r.sunrise_Sunset ≠ none →
      ∃ cr, cr ∈ clean t ∧ cr.start_Time = none ∧ cr.hour = none ∧ cr.dayOfWeek = none) ∧
    (∀ rs : List CleanRecord,
      byHour (rs.filter (fun r => r.hour.isSome)) = byHour rs) ∧
    (∀ rs : List CleanRecord,
      byDayOfWeek (rs.filter (fun r => r.dayOfWeek.isSome)) = byDayOfWeek rs) := by
  refine ⟨?_, ?_, ?_⟩
  · rintro t r hmem ⟨st, hst, hparse⟩ hla hlo hwc hss
    obtain ⟨la, hla2⟩ := Option.ne_none_iff_exists'.mp hla
    obtain ⟨lo, hlo2⟩ := Option.ne_none_iff_exists'.mp hlo
    obtain ⟨wc, hwc2⟩ := Option.ne_none_iff_exists'.mp hwc
    obtain ⟨ss, hss2⟩ := Option.ne_none_iff_exists'.mp hss
    refine ⟨{ start_Time := none, start_Lat := la, start_Lng := lo, severity := r.severity,
              weather_Condition := wc, sunrise_Sunset := ss, junction := r.junction,
              crossing := r.crossing, traffic_Signal := r.traffic_Signal,
              hour := none, dayOfWeek := none },
            List.mem_filterMap.mpr ⟨r, hmem, ?_⟩, rfl, rfl, rfl⟩
    simp [cleanRow, hst, hla2, hlo2, hwc2, hss2, hparse]
  · intro rs
    simp only [byHour, filterMap_filter_isSome]
  · intro rs
    simp only [byDayOfWeek, filterMap_filter_isSome_str]

/-- Witness for C3: instantiated on the concrete one-row table whose
Start_Time does not parse. -/
theorem unparseable_rows_spec_witness :
    ∃ cr, cr ∈ clean [rowU] ∧ cr.start_Time = none ∧ cr.hour = none ∧ cr.dayOfWeek = none :=
  unparseable_rows_spec.1 [rowU] rowU (by decide) ⟨"banana", rfl, by decide⟩
    (by decide) (by decide) (by decide) (by decide)

/-- C4 counterexample: the Cleaner output for the row with the non-null
unparseable Start_Time has a null parsed timestamp and a null Hour, so
not every cleaned record has all required fields non-null with an
integer Hour. -/
theorem clean_null_timestamp :
    (clean [rowU]).map CleanRecord.start_Time = [none] ∧
    (clean [rowU]).map CleanRecord.hour = [none] := by decide

/-- C4 (amended): every cleaned record has non-null latitude, longitude,
weather condition and day/night indicator by construction of the dropna
filter; Hour and DayOfWeek are exactly the projections of the parsed
timestamp, so whenever the timestamp parsed, Hour is the timestamp hour
(at most 23) and DayOfWeek is one of the seven canonical names, while a
record whose timestamp failed to parse keeps null timestamp, Hour and
DayOfWeek. -/
theorem clean_invariants (t : List Record) (cr : CleanRecord) (h : cr ∈ clean t) :
    cr.hour = cr.start_Time.map Timestamp.hour ∧
    cr.dayOfWeek = cr.start_Time.map timestampDayName ∧
    (∀ ts, cr.start_Time = some ts → ts.hour ≤ 23 ∧ timestampDayName ts ∈ weekdayNames) ∧
    (cr.start_Time = none → cr.hour = none ∧ cr.dayOfWeek = none) := by
  obtain ⟨r, hr, hcr⟩ := List.mem_filterMap.mp h
  unfold cleanRow at hcr
  repeat split at hcr
  all_goals first | exact Option.noConfusion hcr | skip
  have h2 := Option.some.inj hcr
  subst h2
  refine ⟨rfl, rfl, ?_, ?_⟩
  · intro ts hts
    dsimp only at hts
    exact ⟨to_datetime_hour_le _ _ hts, timestampDayName_mem ts⟩
  · intro hnone
    dsimp only at hnone ⊢
    simp [hnone]

/-- Witness for C4: the cleaned form of the concrete parseable row
satisfies the invariants. -/
theorem clean_invariants_witness :
    crA.hour = crA.start_Time.map Timestamp.hour ∧
    crA.dayOfWeek = crA.start_Time.map timestampDayName ∧
    (∀ ts, crA.start_Time = some ts → ts.hour ≤ 23 ∧ timestampDayName ts ∈ weekdayNames) ∧
    (crA.start_Time = none → crA.hour = none ∧ crA.dayOfWeek = none) :=
  clean_invariants [rowA] crA (by decide)

/-- C5 counterexample: for the table of two records at Hour 5 the ByHour
output is the single bucket (5, 2): the other 23 hour buckets are absent
rather than present with count 0, because the countplot call derives its
categories from the data. -/
theorem byHour_buckets_absent :
    byHour (clean [rowA, rowA]) = [(5, 2)] ∧ (byHour (clean [rowA, rowA])).length = 1 := by
  decide

theorem map_pair_fst {α β : Type} (f : α → β) (l : List α) :
    (l.map (fun v => (v, f v))).map Prod.fst = l := by
  induction l with
  | nil => rfl
  | cons x xs ih => simp [ih]

/-- C5 (amended): ByHour has one bucket per hour value observed in the
cleaned records (no duplicate buckets), each with the exact count of
records at that hour; hours with no records do not appear at all; in
particular two records at Hour 5 give exactly the output (5, 2). -/
theorem byHour_spec (rs : List CleanRecord) :
    ((byHour rs).map Prod.fst).Nodup ∧
    (∀ h c, (h, c) ∈ byHour rs ↔
      (h ∈ rs.filterMap CleanRecord.hour ∧
       c = (rs.filterMap CleanRecord.hour).count h)) := by
  constructor
  · have hkeys : (byHour rs).map Prod.fst =
        List.insertionSort (fun a b => a ≤ b) (firstDedup (rs.filterMap CleanRecord.hour)) := by
      simp only [byHour]
      exact map_pair_fst _ _
    rw [hkeys]
    exact (List.perm_insertionSort _ _).nodup_iff.mpr (nodup_firstDedup _)
  · intro h c
    constructor
    · intro hmem
      simp only [byHour, List.mem_map, List.mem_insertionSort] at hmem
      obtain ⟨v, hv, heq⟩ := hmem
      obtain ⟨rfl, rfl⟩ := Prod.mk.injEq .. |>.mp heq
      exact ⟨(mem_firstDedup _ _).mp hv, rfl⟩
    · rintro ⟨hmem, rfl⟩
      simp only [byHour, List.mem_map, List.mem_insertionSort]
      exact ⟨h, (mem_firstDedup _ _).mpr hmem, rfl⟩

/-- Witness for C5: the amended characterization instantiated on the
concrete two-record table at Hour 5. -/
theorem byHour_spec_witness :
    ((byHour (clean [rowA, rowA])).map Prod.fst).Nodup ∧
    (∀ h c, (h, c) ∈ byHour (clean [rowA, rowA]) ↔
      (h ∈ (clean [rowA, rowA]).filterMap CleanRecord.hour ∧
       c = ((clean [rowA, rowA]).filterMap CleanRecord.hour).count h)) :=
  byHour_spec (clean [rowA, rowA])

theorem value_counts_sorted (xs : List String) :
    List.Sorted countGe (value_counts xs) :=
  List.sorted_insertionSort countGe _

theorem value_counts_perm (xs : List String) :
    (value_counts xs).Perm ((firstDedup xs).map (fun c => (c, xs.count c))) :=
  List.perm_insertionSort countGe _

theorem value_counts_count (xs : List String) (p : String × Nat)
    (hp : p ∈ value_counts xs) : p.2 = xs.count p.1 := by
  have := (value_counts_perm xs).mem_iff.mp hp
  obtain ⟨c, _, heq⟩ := List.mem_map.mp this
  rw [← heq]

theorem value_counts_keys_nodup (xs : List String) :
    ((value_counts xs).map Prod.fst).Nodup := by
  have hperm := (value_counts_perm xs).map Prod.fst
  rw [map_pair_fst] at hperm
  exact hperm.nodup_iff.mpr (nodup_firstDedup _)

/-- C6: ByWeather returns at most 10 entries, sorted descending by
count with pairwise distinct weather conditions (ties resolved in the
deterministic first-seen order of the stable sort), each entry carrying
the exact count of its condition, and the entries dominate every
weather condition left out. -/
theorem byWeather_spec (rs : List CleanRecord) :
    (byWeather rs).length ≤ 10 ∧
    List.Sorted countGe (byWeather rs) ∧
    ((byWeather rs).map Prod.fst).Nodup ∧
    (∀ p ∈ byWeather rs, p.2 = (rs.map CleanRecord.weather_Condition).count p.1) ∧
    (∀ c ∈ rs.map CleanRecord.weather_Condition,
      c ∉ (byWeather rs).map Prod.fst →
      ∀ p ∈ byWeather rs, (rs.map CleanRecord.weather_Condition).count c ≤ p.2) := by
  unfold byWeather
  set xs := rs.map CleanRecord.weather_Condition with hxs
  refine ⟨List.length_take_le _ _, ?_, ?_, ?_, ?_⟩
  · exact List.Pairwise.sublist (List.take_sublist _ _) (value_counts_sorted xs)
  · rw [List.map_take]
    exact (value_counts_keys_nodup xs).sublist (List.take_sublist _ _)
  · intro p hp
    exact value_counts_count xs p (List.take_subset _ _ hp)
  · intro c hc hnotkey p hp
    have hcmem : (c, xs.count c) ∈ value_counts xs :=
      (value_counts_perm xs).mem_iff.mpr (List.mem_map.mpr ⟨c, (mem_firstDedup _ _).mpr hc, rfl⟩)
    have hnotin : (c, xs.count c) ∉ (value_counts xs).take 10 := by
      intro hmem2
      exact hnotkey (List.mem_map.mpr ⟨(c, xs.count c), hmem2, rfl⟩)
    have hsplit : (c, xs.count c) ∈ (value_counts xs).take 10 ++ (value_counts xs).drop 10 := by
      rw [List.take_append_drop]
      exact hcmem
    rcases List.mem_append.mp hsplit with h1 | h2
    · exact absurd h1 hnotin
    · have hsorted := value_counts_sorted xs
      rw [← List.take_append_drop 10 (value_counts xs)] at hsorted
      exact (List.pairwise_append.mp hsorted).2.2 p hp (c, xs.count c) h2

/-- Witness for C6: the ByWeather guarantees instantiated on the
concrete three-row table with two weather conditions. -/
theorem byWeather_spec_witness :
    (byWeather (clean [rowA, rowA, rowU])).length ≤ 10 ∧
    List.Sorted countGe (byWeather (clean [rowA, rowA, rowU])) ∧
    ((byWeather (clean [rowA, rowA, rowU])).map Prod.fst).Nodup ∧
    (∀ p ∈ byWeather (clean [rowA, rowA, rowU]),
      p.2 = ((clean [rowA, rowA, rowU]).map CleanRecord.weather_Condition).count p.1) ∧
    (∀ c ∈ (clean [rowA, rowA, rowU]).map CleanRecord.weather_Condition,
      c ∉ (byWeather (clean [rowA, rowA, rowU])).map Prod.fst →
      ∀ p ∈ byWeather (clean [rowA, rowA, rowU]),
        ((clean [rowA, rowA, rowU]).map CleanRecord.weather_Condition).count c ≤ p.2) :=
  byWeather_spec (clean [rowA, rowA, rowU])
